import Mathlib

/-!
Verification of the authentication service in
`0x03-user_authentication_service/auth.py`.

The `Auth` class composes a persistent record store (`DB`, from `db.py`) and
the `bcrypt` hashing library.  Those collaborators are modelled here:

* The store holds a list of user records; `find_user_by` returns the first
  record matching the given field (raising `NoResultFound` when none does,
  modelled as `Option`), `add_user` appends a fresh record, and `update_user`
  applies a partial field update to the record with the given id.
* `bcrypt.hashpw` is modelled as an ideal salted hash: the digest records the
  salt and determines the password (collisions idealised away), and
  `bcrypt.checkpw` succeeds exactly on the hashed password.
* Randomness (`bcrypt.gensalt`, `uuid.uuid4`) is passed in explicitly: each
  operation that draws a salt or a fresh token takes it as a parameter.
* A Python exception escaping a method is modelled with `Except`: the
  operation returns the error paired with the store as it was when the
  exception was raised.
-/

namespace AuthService

/-- A bcrypt digest, as produced by `bcrypt.hashpw(password.encode(), salt)`:
the salt is embedded in the digest, and the digest determines the password it
was computed from (ideal hash, no collisions). -/
structure BcryptHash where
  salt : Nat
  pw : String
deriving DecidableEq

/-- `bcrypt.hashpw`: salted digest of the password. -/
def hashpw (password : String) (salt : Nat) : BcryptHash :=
  ⟨salt, password⟩

/-- `bcrypt.checkpw`: true exactly when `password` is the password that was
hashed into `h` (bcrypt re-hashes with the embedded salt and compares). -/
def checkpw (password : String) (h : BcryptHash) : Bool :=
  password == h.pw

/-- A row of the `users` table (`user.py`): id, email, hashed password,
nullable session id, nullable reset token. -/
structure User where
  id : Nat
  email : String
  hashed_password : BcryptHash
  session_id : Option String
  reset_token : Option String
deriving DecidableEq

/-- Modelled from the spec: the persistence collaborator (`db.py`, not under
`src/`) is a key-indexed store of user records with lookup-by-field, insert
with freshly assigned id, and partial-field update. -/
structure DB where
  users : List User
  next_id : Nat
deriving DecidableEq

/-- Modelled from the spec: `DB.find_user_by(email=...)` — first record with
that email (`none` models the `NoResultFound` exception). -/
def DB.find_user_by_email (db : DB) (email : String) : Option User :=
  db.users.find? (fun u => u.email == email)

/-- Modelled from the spec: `DB.find_user_by(session_id=...)`. -/
def DB.find_user_by_session_id (db : DB) (sid : String) : Option User :=
  db.users.find? (fun u => u.session_id == some sid)

/-- Modelled from the spec: `DB.find_user_by(reset_token=...)`. -/
def DB.find_user_by_reset_token (db : DB) (tok : String) : Option User :=
  db.users.find? (fun u => u.reset_token == some tok)

/-- Modelled from the spec: `DB.add_user(email, hashed_password)` inserts a
record with a freshly assigned id and returns it. -/
def DB.add_user (db : DB) (email : String) (hp : BcryptHash) : User × DB :=
  let u : User := ⟨db.next_id, email, hp, none, none⟩
  (u, ⟨db.users ++ [u], db.next_id + 1⟩)

/-- Modelled from the spec: `DB.update_user(user_id, **fields)` applies the
partial field update `f` (the keyword arguments) to the record with the given
id, atomically; per the spec there is no existence check, so an absent id is
a no-op rather than a failure. -/
def DB.update_user (db : DB) (user_id : Nat) (f : User → User) : DB :=
  ⟨db.users.map (fun u => if u.id == user_id then f u else u), db.next_id⟩

/-- The Python exceptions `auth.py` can raise. -/
inductive AuthError where
  | valueError (msg : String)
  | typeError (msg : String)
deriving DecidableEq

/-- `Auth._hash_password`: draw a salt (`bcrypt.gensalt()`, passed in
explicitly) and hash the password with it. -/
def _hash_password (salt : Nat) (password : String) : BcryptHash :=
  hashpw password salt

/-- `Auth.register_user(email, password)`.  The duplicate-email `ValueError`
is raised inside the `try` block but only `NoResultFound` is caught, so it
propagates; on that path nothing was hashed or written, so the store is
returned unchanged. -/
def register_user (db : DB) (salt : Nat) (email password : String) :
    Except AuthError User × DB :=
  match db.find_user_by_email email with
  | some _existing_user =>
      (.error (.valueError ("User " ++ email ++ " already exists")), db)
  | none =>
      let hashed_password := _hash_password salt password
      let r := db.add_user email hashed_password
      (.ok r.1, r.2)

/-- `Auth.valid_login(email, password)`: pure read, no mutation. -/
def valid_login (db : DB) (email password : String) : Bool :=
  match db.find_user_by_email email with
  | some user => checkpw password user.hashed_password
  | none => false

/-- `Auth.create_session(email)`: the fresh uuid is passed in explicitly. -/
def create_session (db : DB) (fresh : String) (email : String) :
    Option String × DB :=
  match db.find_user_by_email email with
  | some user =>
      (some fresh,
       db.update_user user.id (fun u => { u with session_id := some fresh }))
  | none => (none, db)

/-- `Auth.get_user_from_session_id(session_id)`: `if not session_id` is true
for Python `None` and for the empty string, and short-circuits to `None`
before any store access. -/
def get_user_from_session_id (db : DB) (session_id : Option String) :
    Option User :=
  match session_id with
  | none => none
  | some s => if s == "" then none else db.find_user_by_session_id s

/-- `Auth.destroy_session(user_id)`: unconditionally clear the session id. -/
def destroy_session (db : DB) (user_id : Nat) : DB :=
  db.update_user user_id (fun u => { u with session_id := none })

/-- `Auth.get_reset_password_token(email)`: the fresh uuid is passed in
explicitly. -/
def get_reset_password_token (db : DB) (fresh : String) (email : String) :
    Except AuthError String × DB :=
  match db.find_user_by_email email with
  | none => (.error (.valueError ("User " ++ email ++ " does not exist")), db)
  | some user =>
      (.ok fresh,
       db.update_user user.id (fun u => { u with reset_token := some fresh }))

/-- `Auth.update_password(reset_token, password)`.  On the found path the
source reads `update = self._db.update_user()` and then
`update(user.id, hashed_password=..., reset_token=None)`: `DB.update_user`
requires a positional `user_id` argument (and returns `None`), so invoking it
with no arguments raises `TypeError` before any record is written; the
`except NoResultFound` clause does not catch `TypeError`, so it propagates
with the store unchanged.  On the not-found path `NoResultFound` is caught
and `ValueError("Invalid reset token")` is raised. -/
def update_password (db : DB) (salt : Nat) (reset_token password : String) :
    Except AuthError Unit × DB :=
  match db.find_user_by_reset_token reset_token with
  | some _user =>
      let _hashed_password := _hash_password salt password
      (.error (.typeError
        "update_user() missing 1 required positional argument: 'user_id'"),
       db)
  | none => (.error (.valueError "Invalid reset token"), db)

/-! ### Helper lemmas about the store -/

/-- `find?` commutes with a map that does not change the predicate's value. -/
theorem find_map_of_pres (p : User → Bool) (f : User → User)
    (hf : ∀ u, p (f u) = p u) (l : List User) :
    (l.map f).find? p = (l.find? p).map f := by
  rw [List.find?_map]
  have hpf : (p ∘ f) = p := funext hf
  rw [hpf]

/-- `find?` skips a prefix in which nothing matches. -/
theorem find_append_of_none (p : User → Bool) (l1 l2 : List User)
    (h : l1.find? p = none) : (l1 ++ l2).find? p = l2.find? p := by
  rw [List.find?_append, h, Option.none_or]

/-- A map whose function fixes every element of the list is the identity. -/
theorem map_of_fix (f : User → User) :
    ∀ l : List User, (∀ v ∈ l, f v = v) → l.map f = l := by
  intro l h
  induction l with
  | nil => rfl
  | cons a t ih =>
      rw [List.map_cons, h a (by simp), ih (fun v hv => h v (by simp [hv]))]

/-! ### The claims -/

/-- Claim C4: `valid_login(email, password)` returns `false` when no record
has that email, and returns exactly `bcrypt.checkpw(password,
record.hashed_password)` when a record exists; it is a pure read (its type
returns only a `Bool`, never a modified store). -/
theorem valid_login_spec (db : DB) (email password : String) :
    (db.find_user_by_email email = none →
       valid_login db email password = false) ∧
    (∀ u, db.find_user_by_email email = some u →
       valid_login db email password = checkpw password u.hashed_password) := by
  constructor
  · intro h; simp [valid_login, h]
  · intro u h; simp [valid_login, h]

/-- Claim C4, witness: evaluated at an empty store and at a one-record
store. -/
theorem valid_login_spec_witness :
    valid_login ⟨[], 0⟩ "e" "p" = false ∧
    valid_login ⟨[⟨1, "e", hashpw "p" 0, none, none⟩], 2⟩ "e" "p"
      = checkpw "p" (hashpw "p" 0) :=
  ⟨(valid_login_spec ⟨[], 0⟩ "e" "p").1 rfl,
   (valid_login_spec ⟨[⟨1, "e", hashpw "p" 0, none, none⟩], 2⟩ "e" "p").2
     ⟨1, "e", hashpw "p" 0, none, none⟩ rfl⟩

/-- Claim C5: `get_user_from_session_id` returns `none` on a null or empty
session id without consulting the store (the result is `none` uniformly in
the store), otherwise returns exactly the store lookup by session id; it
never mutates the store (its type returns only an `Option User`). -/
theorem get_user_from_session_id_spec (db : DB) (s : String) :
    get_user_from_session_id db none = none ∧
    get_user_from_session_id db (some "") = none ∧
    (s ≠ "" →
       get_user_from_session_id db (some s) = db.find_user_by_session_id s) ∧
    (∀ db2 : DB, get_user_from_session_id db2 none = none ∧
       get_user_from_session_id db2 (some "") = none) := by
  refine ⟨rfl, rfl, ?_, fun db2 => ⟨rfl, rfl⟩⟩
  intro hs
  simp [get_user_from_session_id, hs]

/-- Claim C5, witness: a non-empty session id is looked up in the store. -/
theorem get_user_from_session_id_spec_witness :
    get_user_from_session_id ⟨[], 0⟩ (some "x")
      = DB.find_user_by_session_id ⟨[], 0⟩ "x" :=
  (get_user_from_session_id_spec ⟨[], 0⟩ "x").2.2.1 (by decide)

/-- Claim C7: `update_password` on a reset token matching no record raises
`ValueError("Invalid reset token")` (the InvalidToken error) and leaves the
store unchanged. -/
theorem update_password_invalid_token (db : DB) (salt : Nat)
    (tok password : String)
    (h : db.find_user_by_reset_token tok = none) :
    update_password db salt tok password
      = (.error (.valueError "Invalid reset token"), db) := by
  simp [update_password, h]

/-- Claim C7, witness: evaluated at the empty store. -/
theorem update_password_invalid_token_witness :
    update_password ⟨[], 0⟩ 0 "t" "p"
      = (.error (.valueError "Invalid reset token"), ⟨[], 0⟩) :=
  update_password_invalid_token ⟨[], 0⟩ 0 "t" "p" rfl

/-- Claim C10: when `register_user` finds the email already present it raises
the duplicate-email `ValueError` right away: the result is independent of the
salt and the password (no hash is computed) and the returned store is exactly
the input store (no write happened). -/
theorem register_user_duplicate_no_hash_no_write (db : DB) (email : String)
    (u : User) (h : db.find_user_by_email email = some u) :
    ∀ salt password,
      register_user db salt email password
        = (.error (.valueError ("User " ++ email ++ " already exists")), db) := by
  intro salt password
  simp [register_user, h]

/-- Claim C10, witness: evaluated at a one-record store. -/
theorem register_user_duplicate_no_hash_no_write_witness :
    register_user ⟨[⟨1, "e", hashpw "p" 0, none, none⟩], 2⟩ 9 "e" "q"
      = (.error (.valueError ("User " ++ "e" ++ " already exists")),
         ⟨[⟨1, "e", hashpw "p" 0, none, none⟩], 2⟩) :=
  register_user_duplicate_no_hash_no_write
    ⟨[⟨1, "e", hashpw "p" 0, none, none⟩], 2⟩ "e"
    ⟨1, "e", hashpw "p" 0, none, none⟩ rfl 9 "q"

/-- Claim C3: `register_user` fails with the AlreadyExists `ValueError`
carrying the email when a record with that email exists, leaving the store
unchanged (never overwriting or merging); otherwise it hashes the password,
inserts a record with that email and digest and null session and reset
tokens, returns it, and a subsequent registration of the same email fails
with AlreadyExists. -/
theorem register_user_spec (db : DB) (salt : Nat) (email password : String) :
    (∀ u, db.find_user_by_email email = some u →
       register_user db salt email password
         = (.error (.valueError ("User " ++ email ++ " already exists")), db)) ∧
    (db.find_user_by_email email = none →
       register_user db salt email password
         = (.ok ⟨db.next_id, email, _hash_password salt password, none, none⟩,
            ⟨db.users ++ [⟨db.next_id, email, _hash_password salt password,
               none, none⟩], db.next_id + 1⟩) ∧
       ∀ salt2 pw2,
         (register_user ⟨db.users ++ [⟨db.next_id, email,
             _hash_password salt password, none, none⟩], db.next_id + 1⟩
           salt2 email pw2).1
           = .error (.valueError ("User " ++ email ++ " already exists"))) := by
  constructor
  · intro u h; simp [register_user, h]
  · intro h
    refine ⟨by simp [register_user, h, DB.add_user], ?_⟩
    intro salt2 pw2
    have hfind : DB.find_user_by_email
        ⟨db.users ++ [⟨db.next_id, email, _hash_password salt password,
           none, none⟩], db.next_id + 1⟩ email
        = some ⟨db.next_id, email, _hash_password salt password,
           none, none⟩ := by
      unfold DB.find_user_by_email at h ⊢
      rw [find_append_of_none _ _ _ h]
      simp
    simp [register_user, hfind]

/-- Claim C3, witness: registering a fresh email at the empty store. -/
theorem register_user_spec_witness :
    register_user ⟨[], 0⟩ 3 "e" "p"
      = (.ok ⟨0, "e", _hash_password 3 "p", none, none⟩,
         ⟨[] ++ [⟨0, "e", _hash_password 3 "p", none, none⟩], 0 + 1⟩) :=
  ((register_user_spec ⟨[], 0⟩ 3 "e" "p").2 rfl).1

/-- Maps that agree pointwise on a list give equal maps over it. -/
theorem map_congr_on (f g : User → User) :
    ∀ l : List User, (∀ v ∈ l, f v = g v) → l.map f = l.map g := by
  intro l h
  induction l with
  | nil => rfl
  | cons a t ih =>
      rw [List.map_cons, List.map_cons, h a (by simp),
          ih (fun v hv => h v (by simp [hv]))]

/-- Claim C1 (code bug in the source): on a store holding a record with the
matching reset token, `update_password` raises `TypeError` — the source
invokes `self._db.update_user()` with no arguments and then calls its
result — so the password is never updated and the reset token is never
cleared, contrary to the documented atomic update-and-return-nothing. -/
theorem update_password_match_raises_type_error :
    update_password ⟨[⟨1, "a@x.com", hashpw "p1" 0, none, some "rt"⟩], 2⟩
        7 "rt" "p2"
      = (.error (.typeError
          "update_user() missing 1 required positional argument: 'user_id'"),
         ⟨[⟨1, "a@x.com", hashpw "p1" 0, none, some "rt"⟩], 2⟩) := rfl

/-- Claim C6: `get_reset_password_token` raises the InvalidTarget
`ValueError` carrying the email when no record has that email, leaving the
store unchanged; otherwise it persists the fresh token as that record's
reset_token (overwriting any prior one, other fields untouched) and returns
the token. -/
theorem get_reset_password_token_spec (db : DB) (fresh email : String) :
    (db.find_user_by_email email = none →
       get_reset_password_token db fresh email
         = (.error (.valueError ("User " ++ email ++ " does not exist")), db)) ∧
    (∀ u, db.find_user_by_email email = some u →
       (get_reset_password_token db fresh email).1 = .ok fresh ∧
       (get_reset_password_token db fresh email).2.find_user_by_email email
         = some { u with reset_token := some fresh }) := by
  constructor
  · intro h; simp [get_reset_password_token, h]
  · intro u h
    refine ⟨by simp [get_reset_password_token, h], ?_⟩
    simp only [get_reset_password_token, h, DB.update_user]
    unfold DB.find_user_by_email at h ⊢
    rw [find_map_of_pres _ _
      (fun v => by by_cases hv : v.id == u.id <;> simp [hv]) _, h]
    simp

/-- Claim C6, witness: evaluated at a one-record store and at the empty
store. -/
theorem get_reset_password_token_spec_witness :
    (get_reset_password_token ⟨[⟨1, "e", hashpw "p" 0, none, none⟩], 2⟩
       "tok" "e").2.find_user_by_email "e"
      = some { id := 1, email := "e", hashed_password := hashpw "p" 0,
               session_id := none, reset_token := some "tok" } :=
  ((get_reset_password_token_spec ⟨[⟨1, "e", hashpw "p" 0, none, none⟩], 2⟩
      "tok" "e").2 ⟨1, "e", hashpw "p" 0, none, none⟩ rfl).2

/-- Claim C8: `destroy_session` never fails (it is total), calling it twice
equals calling it once, it is a no-op when no record has the id, and every
record with that id ends with a null session_id. -/
theorem destroy_session_spec (db : DB) (uid : Nat) :
    destroy_session (destroy_session db uid) uid = destroy_session db uid ∧
    ((∀ v ∈ db.users, v.id ≠ uid) → destroy_session db uid = db) ∧
    (∀ v ∈ (destroy_session db uid).users, v.id = uid →
       v.session_id = none) := by
  refine ⟨?_, ?_, ?_⟩
  · simp only [destroy_session, DB.update_user, List.map_map]
    congr 1
    refine map_congr_on _ _ _ (fun v _ => ?_)
    by_cases hv : v.id == uid <;> simp [Function.comp, hv]
  · intro h
    have hfix : db.users.map
        (fun u => if u.id == uid then { u with session_id := none } else u)
        = db.users :=
      map_of_fix _ _ (fun v hv => by simp [h v hv])
    show DB.mk _ _ = db
    rw [hfix]
  · intro v hv hvid
    simp only [destroy_session, DB.update_user, List.mem_map] at hv
    obtain ⟨w, _, rfl⟩ := hv
    by_cases hw : w.id == uid <;> simp_all

/-- Claim C8, witness: destroying the session of an id absent from the store
leaves the store unchanged. -/
theorem destroy_session_spec_witness :
    destroy_session ⟨[⟨1, "e", hashpw "p" 0, some "s", none⟩], 2⟩ 5
      = ⟨[⟨1, "e", hashpw "p" 0, some "s", none⟩], 2⟩ :=
  (destroy_session_spec ⟨[⟨1, "e", hashpw "p" 0, some "s", none⟩], 2⟩ 5).2.1
    (by decide)

/-- Resolving a session token held by no record yields `none`. -/
theorem resolve_none_of_absent (w : DB) (t : String)
    (h : ∀ v ∈ w.users, v.session_id ≠ some t) :
    get_user_from_session_id w (some t) = none := by
  simp only [get_user_from_session_id]
  split
  · rfl
  · unfold DB.find_user_by_session_id
    rw [List.find?_eq_none]
    intro x hx
    simpa using h x hx

/-- Claim C2: `create_session` returns `none` without error and leaves the
store unchanged when no record has the email; otherwise it persists the
fresh token as the found record's session_id (overwriting any prior one) and
returns it; and a second `create_session` for the same email invalidates the
first token: resolving the first token afterwards yields `none`, provided
the two fresh tokens differ and the first was indeed fresh for the store. -/
theorem create_session_spec (db : DB) (t1 t2 email : String) :
    (db.find_user_by_email email = none →
       create_session db t1 email = (none, db)) ∧
    (∀ u, db.find_user_by_email email = some u →
       (create_session db t1 email).1 = some t1 ∧
       (create_session db t1 email).2.find_user_by_email email
         = some { u with session_id := some t1 } ∧
       (t1 ≠ t2 → (∀ v ∈ db.users, v.session_id ≠ some t1) →
          get_user_from_session_id
            (create_session (create_session db t1 email).2 t2 email).2
            (some t1)
            = none)) := by
  constructor
  · intro h; simp [create_session, h]
  · intro u h
    have hstep1 : create_session db t1 email
        = (some t1,
           ⟨db.users.map (fun v =>
              if v.id == u.id then { v with session_id := some t1 } else v),
            db.next_id⟩) := by
      simp only [create_session, h, DB.update_user]
    have hfind1 : (DB.mk (db.users.map (fun v =>
          if v.id == u.id then { v with session_id := some t1 } else v))
          db.next_id).find_user_by_email email
        = some { u with session_id := some t1 } := by
      unfold DB.find_user_by_email at h ⊢
      rw [find_map_of_pres _ _
        (fun v => by by_cases hv : v.id == u.id <;> simp [hv]) _, h]
      simp
    have hstep2 : create_session (DB.mk (db.users.map (fun v =>
          if v.id == u.id then { v with session_id := some t1 } else v))
          db.next_id) t2 email
        = (some t2,
           ⟨(db.users.map (fun v =>
               if v.id == u.id then { v with session_id := some t1 } else v)).map
             (fun v =>
               if v.id == u.id then { v with session_id := some t2 } else v),
            db.next_id⟩) := by
      simp only [create_session]
      rw [hfind1]
      rfl
    refine ⟨by rw [hstep1], by rw [hstep1]; exact hfind1, ?_⟩
    intro hne hfresh
    rw [hstep1, hstep2]
    apply resolve_none_of_absent
    intro w hw
    simp only [List.mem_map] at hw
    obtain ⟨v0, hv0, rfl⟩ := hw
    obtain ⟨v, hv, rfl⟩ := hv0
    by_cases hvid : v.id == u.id
    · simp [hvid, Ne.symm hne]
    · simpa [hvid] using hfresh v hv

/-- Claim C2, witness: two sessions created for the same registered email;
the first token no longer resolves. -/
theorem create_session_spec_witness :
    get_user_from_session_id
      (create_session
        (create_session ⟨[⟨1, "e", hashpw "p" 0, none, none⟩], 2⟩ "t1" "e").2
        "t2" "e").2
      (some "t1") = none :=
  ((create_session_spec ⟨[⟨1, "e", hashpw "p" 0, none, none⟩], 2⟩
      "t1" "t2" "e").2
    ⟨1, "e", hashpw "p" 0, none, none⟩ rfl).2.2 (by decide) (by decide)

/-! ### Token generation (`uuid.uuid4`)

Both token call sites of the source — `_generate_uuid` (used by
`create_session`) and the direct `str(uuid.uuid4())` in
`get_reset_password_token` — draw a version-4 UUID.  Modelled from Python's
`uuid` library: `uuid4()` takes 16 random bytes (an integer `r < 2^128`),
forces bits 76–79 to the version constant `4` and bits 62–63 to the RFC 4122
variant constant `0b10`, and the remaining 122 bits of `r` pass through.
The bit operations of `uuid.UUID.__init__` are expressed below by div/mod
decomposition: bits 0–61 (`r % 2^62`), bits 64–75 (`r / 2^64 % 2^12`) and
bits 80–127 (`r / 2^80`) are kept, the two fixed fields are constants.
`str` renders the integer injectively (hex with dashes in Python, decimal
here); the cardinality bounds below use only that rendering is a function,
so they are independent of the rendering chosen. -/

/-- `uuid.uuid4()` as an integer, as a function of the 16 random bytes. -/
def uuid4_int (r : Nat) : Nat :=
  r % 2 ^ 128 % 2 ^ 62 + 2 * 2 ^ 62
    + (r % 2 ^ 128 / 2 ^ 64 % 2 ^ 12) * 2 ^ 64 + 4 * 2 ^ 76
    + (r % 2 ^ 128 / 2 ^ 80) * 2 ^ 80

/-- `Auth._generate_uuid`: `str(uuid.uuid4())`, as a function of the 16
random bytes drawn by `uuid4`. -/
def _generate_uuid (r : Nat) : String :=
  toString (uuid4_int r)

/-- The 122 random bits of a version-4 UUID value, packed into one number. -/
def uuidRandomBits (v : Nat) : Nat :=
  v % 2 ^ 62 + (v / 2 ^ 64 % 2 ^ 12) * 2 ^ 62 + (v / 2 ^ 80 % 2 ^ 48) * 2 ^ 74

/-- Rebuild a version-4 UUID value from its 122 packed random bits. -/
def uuidOfRandomBits (x : Nat) : Nat :=
  x % 2 ^ 62 + 2 * 2 ^ 62 + (x / 2 ^ 62 % 2 ^ 12) * 2 ^ 64 + 4 * 2 ^ 76
    + (x / 2 ^ 74 % 2 ^ 48) * 2 ^ 80

/-- Spread 122 packed random bits back into a 128-bit random input. -/
def uuidExpand (x : Nat) : Nat :=
  x % 2 ^ 62 + (x / 2 ^ 62 % 2 ^ 12) * 2 ^ 64 + (x / 2 ^ 74) * 2 ^ 80

/-- Field extraction from a value assembled with the two UUIDv4 constants. -/
theorem uuid_fields_of_assembled (a b c : Nat)
    (ha : a < 2 ^ 62) (hb : b < 2 ^ 12) ( _hc : c < 2 ^ 48) :
    (a + 2 * 2 ^ 62 + b * 2 ^ 64 + 4 * 2 ^ 76 + c * 2 ^ 80) % 2 ^ 62 = a ∧
    (a + 2 * 2 ^ 62 + b * 2 ^ 64 + 4 * 2 ^ 76 + c * 2 ^ 80) / 2 ^ 64 % 2 ^ 12
      = b ∧
    (a + 2 * 2 ^ 62 + b * 2 ^ 64 + 4 * 2 ^ 76 + c * 2 ^ 80) / 2 ^ 80 = c := by
  omega

/-- Field extraction from 122 bits packed as `a + b·2^62 + c·2^74`. -/
theorem uuid_fields_of_packed (a b c : Nat)
    (ha : a < 2 ^ 62) (hb : b < 2 ^ 12) (hc : c < 2 ^ 48) :
    (a + b * 2 ^ 62 + c * 2 ^ 74) % 2 ^ 62 = a ∧
    (a + b * 2 ^ 62 + c * 2 ^ 74) / 2 ^ 62 % 2 ^ 12 = b ∧
    (a + b * 2 ^ 62 + c * 2 ^ 74) / 2 ^ 74 % 2 ^ 48 = c ∧
    a + b * 2 ^ 62 + c * 2 ^ 74 < 2 ^ 122 := by
  omega

/-- Field extraction from a raw input spread as `a + b·2^64 + c·2^80`. -/
theorem uuid_fields_of_spread (a b c : Nat)
    (ha : a < 2 ^ 62) (hb : b < 2 ^ 12) (hc : c < 2 ^ 48) :
    (a + b * 2 ^ 64 + c * 2 ^ 80) % 2 ^ 62 = a ∧
    (a + b * 2 ^ 64 + c * 2 ^ 80) / 2 ^ 64 % 2 ^ 12 = b ∧
    (a + b * 2 ^ 64 + c * 2 ^ 80) / 2 ^ 80 = c ∧
    a + b * 2 ^ 64 + c * 2 ^ 80 < 2 ^ 128 := by
  omega

/-- Bounds on the three random fields of a 128-bit input. -/
theorem uuid_input_field_bounds (s : Nat) (hs : s < 2 ^ 128) :
    s % 2 ^ 62 < 2 ^ 62 ∧ s / 2 ^ 64 % 2 ^ 12 < 2 ^ 12 ∧
    s / 2 ^ 80 < 2 ^ 48 := by
  omega

/-- Decomposing a 122-bit number into the three packed fields. -/
theorem uuid_bits_decompose (x : Nat) (hx : x < 2 ^ 122) :
    x % 2 ^ 62 < 2 ^ 62 ∧ x / 2 ^ 62 % 2 ^ 12 < 2 ^ 12 ∧ x / 2 ^ 74 < 2 ^ 48 ∧
    x = x % 2 ^ 62 + (x / 2 ^ 62 % 2 ^ 12) * 2 ^ 62 + (x / 2 ^ 74) * 2 ^ 74 := by
  omega

/-- Every UUIDv4 value is determined by its 122 random bits, which fit in
`2^122`. -/
theorem uuid4_decompose (r : Nat) :
    uuid4_int r = uuidOfRandomBits (uuidRandomBits (uuid4_int r)) ∧
    uuidRandomBits (uuid4_int r) < 2 ^ 122 := by
  have hs : r % 2 ^ 128 < 2 ^ 128 := Nat.mod_lt _ (by norm_num)
  obtain ⟨ha, hb, hc⟩ := uuid_input_field_bounds (r % 2 ^ 128) hs
  obtain ⟨h1, h2, h3⟩ := uuid_fields_of_assembled _ _ _ ha hb hc
  obtain ⟨g1, g2, g3, g4⟩ := uuid_fields_of_packed _ _ _ ha hb hc
  have hrb : uuidRandomBits (uuid4_int r)
      = r % 2 ^ 128 % 2 ^ 62 + (r % 2 ^ 128 / 2 ^ 64 % 2 ^ 12) * 2 ^ 62
        + (r % 2 ^ 128 / 2 ^ 80) * 2 ^ 74 := by
    simp only [uuid4_int, uuidRandomBits]
    rw [h1, h2, h3, Nat.mod_eq_of_lt hc]
  refine ⟨?_, ?_⟩
  · rw [hrb]
    simp only [uuid4_int, uuidOfRandomBits]
    rw [g1, g2, g3]
  · rw [hrb]; exact g4

/-- Distinct 122-bit values come from distinct UUIDv4 values: spreading the
bits into a raw input below `2^128` and running `uuid4` recovers them. -/
theorem uuid4_expand_inverse (x : Nat) (hx : x < 2 ^ 122) :
    uuidExpand x < 2 ^ 128 ∧ uuidRandomBits (uuid4_int (uuidExpand x)) = x := by
  obtain ⟨ha, hb, hc, hdec⟩ := uuid_bits_decompose x hx
  obtain ⟨e1, e2, e3, e4⟩ := uuid_fields_of_spread _ _ _ ha hb hc
  have hex : uuidExpand x < 2 ^ 128 := by simp only [uuidExpand]; exact e4
  refine ⟨hex, ?_⟩
  have hmod : uuidExpand x % 2 ^ 128 = uuidExpand x := Nat.mod_eq_of_lt hex
  have hv : uuid4_int (uuidExpand x)
      = x % 2 ^ 62 + 2 * 2 ^ 62 + (x / 2 ^ 62 % 2 ^ 12) * 2 ^ 64 + 4 * 2 ^ 76
        + (x / 2 ^ 74) * 2 ^ 80 := by
    simp only [uuidExpand] at hmod
    simp only [uuid4_int, uuidExpand]
    rw [hmod, e1, e2, e3]
  rw [hv]
  obtain ⟨f1, f2, f3⟩ := uuid_fields_of_assembled _ _ _ ha hb hc
  simp only [uuidRandomBits]
  rw [f1, f2, f3, Nat.mod_eq_of_lt hc]
  omega

/-- The set of values `uuid4` can produce has at most `2^122` elements. -/
theorem uuid4_card_le :
    ((Finset.range (2 ^ 128)).image uuid4_int).card ≤ 2 ^ 122 := by
  have hsub : (Finset.range (2 ^ 128)).image uuid4_int
      ⊆ (Finset.range (2 ^ 122)).image uuidOfRandomBits := by
    intro v hv
    simp only [Finset.mem_image, Finset.mem_range] at hv ⊢
    obtain ⟨r, _, rfl⟩ := hv
    exact ⟨uuidRandomBits (uuid4_int r), (uuid4_decompose r).2,
      ((uuid4_decompose r).1).symm⟩
  calc ((Finset.range (2 ^ 128)).image uuid4_int).card
      ≤ ((Finset.range (2 ^ 122)).image uuidOfRandomBits).card :=
        Finset.card_le_card hsub
    _ ≤ (Finset.range (2 ^ 122)).card := Finset.card_image_le
    _ = 2 ^ 122 := Finset.card_range _

/-- The set of values `uuid4` can produce has at least `2^122` elements. -/
theorem uuid4_card_ge :
    2 ^ 122 ≤ ((Finset.range (2 ^ 128)).image uuid4_int).card := by
  have h := Finset.card_le_card_of_injOn (fun x => uuid4_int (uuidExpand x))
    (s := Finset.range (2 ^ 122))
    (t := (Finset.range (2 ^ 128)).image uuid4_int)
    (fun x hx => by
      simp only [Finset.mem_range] at hx
      exact Finset.mem_image_of_mem _
        (Finset.mem_range.mpr (uuid4_expand_inverse x hx).1))
    (fun x hx y hy hxy => by
      simp only [Finset.coe_range, Set.mem_Iio] at hx hy
      have hx2 := (uuid4_expand_inverse x hx).2
      have hy2 := (uuid4_expand_inverse y hy).2
      simp only at hxy
      rw [← hx2, ← hy2, hxy])
  simpa using h

/-- Claim C9, counterexample: the token generator's random value space does
NOT have at least `2^128` possible values — over all `2^128` random inputs,
`str(uuid.uuid4())` takes fewer than `2^128` distinct values, because the
version and variant fields are fixed. -/
theorem generate_uuid_space_lt :
    ((Finset.range (2 ^ 128)).image _generate_uuid).card < 2 ^ 128 := by
  have himg : (Finset.range (2 ^ 128)).image _generate_uuid
      = ((Finset.range (2 ^ 128)).image uuid4_int).image toString := by
    rw [Finset.image_image]; rfl
  calc ((Finset.range (2 ^ 128)).image _generate_uuid).card
      = (((Finset.range (2 ^ 128)).image uuid4_int).image toString).card := by
        rw [himg]
    _ ≤ ((Finset.range (2 ^ 128)).image uuid4_int).card :=
        Finset.card_image_le
    _ ≤ 2 ^ 122 := uuid4_card_le
    _ < 2 ^ 128 := by norm_num

/-- Claim C9, amended: the token generator (used identically for session
tokens and reset tokens) draws a version-4 UUID, whose 128-bit value has 122
random bits: its random value space has exactly `2^122` possible values,
which is fewer than `2^128`. -/
theorem uuid4_space_card :
    ((Finset.range (2 ^ 128)).image uuid4_int).card = 2 ^ 122 ∧
    2 ^ 122 < 2 ^ 128 :=
  ⟨Nat.le_antisymm uuid4_card_le uuid4_card_ge, by norm_num⟩

end AuthService
